import Mathlib

/-!
Shallow embedding of the rconjs Source-RCON client.

Buffers are `List Nat` of byte values (each `< 256`); JavaScript strings are
`List Nat` of UTF-16 code-unit values.  Node's `Buffer` integer accessors are
modelled with explicit range checks (Node throws `ERR_OUT_OF_RANGE`, modelled
as `Option.none`).  Two's-complement int32 values are `Int` with explicit
reduction modulo `2^32`.
-/

namespace Rcon

/-- The packet-type code table from the source (`PACKET_TYPES`). -/
def PACKET_TYPES_SERVERDATA_AUTH : Int := 3

/-- `SERVERDATA_AUTH_RESPONSE` from `PACKET_TYPES`. -/
def PACKET_TYPES_SERVERDATA_AUTH_RESPONSE : Int := 2

/-- `SERVERDATA_EXECCOMMAND` from `PACKET_TYPES`. -/
def PACKET_TYPES_SERVERDATA_EXECCOMMAND : Int := 2

/-- `SERVERDATA_RESPONSE_VALUE` from `PACKET_TYPES`. -/
def PACKET_TYPES_SERVERDATA_RESPONSE_VALUE : Int := 0

/-- UTF-8 byte length of one code unit below `0x10000`; `Buffer.byteLength`
defaults to the utf8 encoding.  Every claim restricts bodies to ASCII
(code `< 128`), where this is `1`, so surrogate-pair subtleties never arise. -/
def utf8Len (c : Nat) : Nat :=
  if c < 128 then 1 else if c < 2048 then 2 else 3

/-- `Buffer.byteLength(s)` (default utf8 encoding). -/
def byteLength (s : List Nat) : Nat :=
  (s.map utf8Len).sum

/-- The four little-endian bytes of `v` taken modulo `2^32`
(two's complement for negative `v`). -/
def int32Bytes (v : Int) : List Nat :=
  let n := (v % (2 ^ 32 : Int)).toNat
  [n % 256, n / 256 % 256, n / 65536 % 256, n / 16777216 % 256]

/-- Node `buffer.writeInt32LE(v, off)`: throws `ERR_OUT_OF_RANGE` unless
`-2^31 ≤ v < 2^31`; on success stores the four little-endian bytes. -/
def writeInt32LE (v : Int) : Option (List Nat) :=
  if -(2 ^ 31 : Int) ≤ v ∧ v < 2 ^ 31 then some (int32Bytes v) else none

/-- Node `'ascii'` string→bytes encoding: identical to latin1,
each code unit masked to a byte. -/
def asciiWriteBytes (s : List Nat) : List Nat :=
  s.map (fun c => c % 256)

/-- Node `'ascii'` bytes→string decoding: the high bit of each byte is
cleared. -/
def asciiReadBytes (b : List Nat) : List Nat :=
  b.map (fun c => c % 128)

/-- `rcon_create_packet_structure(id, type, body)` from the source:
allocates `byteLength(body) + 14` zeroed bytes, writes `size − 4`, `id`,
`type` as little-endian int32 at offsets 0, 4, 8, writes `body` in the
`'ascii'` encoding at offset 12 (Node clamps the write to the buffer, at most
`size − 12` bytes; bytes of the body region not written stay zero from
`Buffer.alloc`), and writes a zero int16 over the final two bytes. -/
def rcon_create_packet_structure (id ty : Int) (body : List Nat) :
    Option (List Nat) := do
  let size := byteLength body + 14
  let szB ← writeInt32LE ((size : Int) - 4)
  let idB ← writeInt32LE id
  let tyB ← writeInt32LE ty
  let written := (asciiWriteBytes body).take (size - 12)
  some (szB ++ idB ++ tyB ++ written
        ++ List.replicate (size - 14 - written.length) 0 ++ [0, 0])

/-- Reassemble a little-endian 32-bit value from four bytes. -/
def le32 (b0 b1 b2 b3 : Nat) : Nat :=
  b0 + 256 * b1 + 65536 * b2 + 16777216 * b3

/-- Interpret an unsigned 32-bit value as a signed int32. -/
def toSigned32 (n : Nat) : Int :=
  if n < 2 ^ 31 then (n : Int) else (n : Int) - 2 ^ 32

/-- Node `buffer.readInt32LE(off)`: throws `ERR_OUT_OF_RANGE` unless
`off + 4 ≤ buffer.length`; reads four little-endian bytes as a signed
int32. -/
def readInt32LE (b : List Nat) (off : Nat) : Option Int :=
  if off + 4 ≤ b.length then
    some (toSigned32 (le32 (b.getD off 0) (b.getD (off + 1) 0)
      (b.getD (off + 2) 0) (b.getD (off + 3) 0)))
  else none

/-- The decoded packet record (`PacketStructure` in the source's JSDoc). -/
structure PacketStructure where
  size : Int
  id : Int
  type : Int
  body : List Nat
deriving DecidableEq, Repr

/-- `rcon_get_packet_structure(buffer)` from the source: reads `size`, `id`,
`type` at offsets 0, 4, 8 and decodes `buffer.toString('ascii', 12,
buffer.length - 2)` as the body. -/
def rcon_get_packet_structure (buffer : List Nat) :
    Option PacketStructure := do
  let size ← readInt32LE buffer 0
  let id ← readInt32LE buffer 4
  let ty ← readInt32LE buffer 8
  some ⟨size, id, ty,
    asciiReadBytes ((buffer.take (buffer.length - 2)).drop 12)⟩

/-! ### Codec lemmas -/

lemma byteLength_ascii (s : List Nat) (h : ∀ c ∈ s, c < 128) :
    byteLength s = s.length := by
  induction s with
  | nil => rfl
  | cons a l ih =>
    have ha : a < 128 := h a (List.mem_cons_self a l)
    have hl : ∀ c ∈ l, c < 128 := fun c hc => h c (List.mem_cons_of_mem a hc)
    simp only [byteLength, List.map_cons, List.sum_cons, utf8Len, if_pos ha] at *
    rw [ih hl, List.length_cons]
    omega

lemma asciiWriteBytes_ascii (s : List Nat) (h : ∀ c ∈ s, c < 128) :
    asciiWriteBytes s = s := by
  induction s with
  | nil => rfl
  | cons a l ih =>
    have ha : a < 128 := h a (List.mem_cons_self a l)
    have hl : ∀ c ∈ l, c < 128 := fun c hc => h c (List.mem_cons_of_mem a hc)
    simp only [asciiWriteBytes, List.map_cons] at *
    rw [Nat.mod_eq_of_lt (by omega : a < 256), ih hl]

lemma asciiReadBytes_ascii (s : List Nat) (h : ∀ c ∈ s, c < 128) :
    asciiReadBytes s = s := by
  induction s with
  | nil => rfl
  | cons a l ih =>
    have ha : a < 128 := h a (List.mem_cons_self a l)
    have hl : ∀ c ∈ l, c < 128 := fun c hc => h c (List.mem_cons_of_mem a hc)
    simp only [asciiReadBytes, List.map_cons] at *
    rw [Nat.mod_eq_of_lt ha, ih hl]

/-- On an ASCII body inside the int32 ranges, the encoder produces exactly
header, body, and two NUL bytes. -/
lemma create_packet_ascii (id ty : Int) (body : List Nat)
    (hb : ∀ c ∈ body, c < 128)
    (hsz : (body.length : Int) + 10 < 2 ^ 31)
    (hid : -(2 ^ 31 : Int) ≤ id ∧ id < 2 ^ 31)
    (hty : -(2 ^ 31 : Int) ≤ ty ∧ ty < 2 ^ 31) :
    rcon_create_packet_structure id ty body =
      some (int32Bytes ((body.length : Int) + 10) ++ int32Bytes id
        ++ int32Bytes ty ++ body ++ [0, 0]) := by
  have hcast : ((body.length + 14 : Nat) : Int) - 4 = (body.length : Int) + 10 := by
    push_cast; ring
  have h1 : -(2 ^ 31 : Int) ≤ ((body.length + 14 : Nat) : Int) - 4 ∧
      ((body.length + 14 : Nat) : Int) - 4 < 2 ^ 31 := by
    rw [hcast]
    constructor
    · have : (0 : Int) ≤ (body.length : Int) := Int.ofNat_nonneg _
      omega
    · exact hsz
  simp only [rcon_create_packet_structure, writeInt32LE, byteLength_ascii body hb]
  rw [if_pos h1, if_pos hid, if_pos hty]
  simp only [Option.some_bind, hcast]
  rw [asciiWriteBytes_ascii body hb,
    List.take_of_length_le (by omega : body.length ≤ body.length + 14 - 12)]
  have hrep : body.length + 14 - 14 - body.length = 0 := by omega
  rw [hrep, List.replicate_zero]
  simp

lemma int32Bytes_length (v : Int) : (int32Bytes v).length = 4 := rfl

/-- Reading back the four little-endian bytes of an in-range int32 recovers
the value. -/
lemma toSigned32_int32Bytes (v : Int)
    (h1 : -(2 ^ 31 : Int) ≤ v) (h2 : v < 2 ^ 31) :
    toSigned32 (le32 ((v % (2 ^ 32 : Int)).toNat % 256)
      ((v % (2 ^ 32 : Int)).toNat / 256 % 256)
      ((v % (2 ^ 32 : Int)).toNat / 65536 % 256)
      ((v % (2 ^ 32 : Int)).toNat / 16777216 % 256)) = v := by
  unfold toSigned32 le32
  split <;> omega

/-- The body slice `toString('ascii', 12, length - 2)` of a buffer of shape
header (12 bytes) ++ rest ++ two NULs is exactly `rest`. -/
lemma slice_header (hdr rest : List Nat) (h : hdr.length = 12) :
    ((hdr ++ (rest ++ [0, 0])).take ((hdr ++ (rest ++ [0, 0])).length - 2)).drop 12
      = rest := by
  have hlen : (hdr ++ (rest ++ [0, 0])).length = rest.length + 14 := by
    simp [h]; omega
  rw [hlen]
  have h2 : rest.length + 14 - 2 = 12 + rest.length := by omega
  rw [h2, List.take_append_eq_append_take,
    List.take_of_length_le (by omega : hdr.length ≤ 12 + rest.length)]
  have h3 : 12 + rest.length - hdr.length = rest.length := by omega
  rw [h3, List.take_append_eq_append_take,
    List.take_of_length_le (le_refl rest.length)]
  have h4 : rest.length - rest.length = 0 := by omega
  rw [h4, List.take_zero, List.append_nil]
  exact List.drop_left' h

/-- Decoding any buffer of shape size-bytes ++ id-bytes ++ type-bytes ++
body ++ two NULs. -/
lemma get_packet_parts (s0 s1 s2 s3 i0 i1 i2 i3 t0 t1 t2 t3 : Nat)
    (rest : List Nat) :
    rcon_get_packet_structure
      (s0 :: s1 :: s2 :: s3 :: i0 :: i1 :: i2 :: i3 :: t0 :: t1 :: t2 :: t3
        :: (rest ++ [0, 0])) =
    some ⟨toSigned32 (le32 s0 s1 s2 s3), toSigned32 (le32 i0 i1 i2 i3),
          toSigned32 (le32 t0 t1 t2 t3), asciiReadBytes rest⟩ := by
  have hlen : (s0 :: s1 :: s2 :: s3 :: i0 :: i1 :: i2 :: i3 :: t0 :: t1 :: t2
      :: t3 :: (rest ++ [0, 0])).length = rest.length + 14 := by
    simp
  have r0 : readInt32LE (s0 :: s1 :: s2 :: s3 :: i0 :: i1 :: i2 :: i3 :: t0
      :: t1 :: t2 :: t3 :: (rest ++ [0, 0])) 0
      = some (toSigned32 (le32 s0 s1 s2 s3)) := by
    unfold readInt32LE
    rw [if_pos (by rw [hlen]; omega)]
    rfl
  have r4 : readInt32LE (s0 :: s1 :: s2 :: s3 :: i0 :: i1 :: i2 :: i3 :: t0
      :: t1 :: t2 :: t3 :: (rest ++ [0, 0])) 4
      = some (toSigned32 (le32 i0 i1 i2 i3)) := by
    unfold readInt32LE
    rw [if_pos (by rw [hlen]; omega)]
    rfl
  have r8 : readInt32LE (s0 :: s1 :: s2 :: s3 :: i0 :: i1 :: i2 :: i3 :: t0
      :: t1 :: t2 :: t3 :: (rest ++ [0, 0])) 8
      = some (toSigned32 (le32 t0 t1 t2 t3)) := by
    unfold readInt32LE
    rw [if_pos (by rw [hlen]; omega)]
    rfl
  have hsl := slice_header [s0, s1, s2, s3, i0, i1, i2, i3, t0, t1, t2, t3]
    rest rfl
  simp only [List.cons_append, List.nil_append] at hsl
  simp only [rcon_get_packet_structure, r0, r4, r8, Option.some_bind, hsl]
  rfl

/-- Decoding succeeds on any buffer of length at least 12 and yields the
fixed-offset reads together with the `[12, length − 2)` ascii body slice. -/
lemma get_packet_of_length (b : List Nat) (h : 12 ≤ b.length) :
    rcon_get_packet_structure b =
      some ⟨toSigned32 (le32 (b.getD 0 0) (b.getD 1 0) (b.getD 2 0) (b.getD 3 0)),
            toSigned32 (le32 (b.getD 4 0) (b.getD 5 0) (b.getD 6 0) (b.getD 7 0)),
            toSigned32 (le32 (b.getD 8 0) (b.getD 9 0) (b.getD 10 0) (b.getD 11 0)),
            asciiReadBytes ((b.take (b.length - 2)).drop 12)⟩ := by
  have r0 : readInt32LE b 0
      = some (toSigned32 (le32 (b.getD 0 0) (b.getD 1 0) (b.getD 2 0) (b.getD 3 0))) := by
    unfold readInt32LE
    rw [if_pos (by omega)]
  have r4 : readInt32LE b 4
      = some (toSigned32 (le32 (b.getD 4 0) (b.getD 5 0) (b.getD 6 0) (b.getD 7 0))) := by
    unfold readInt32LE
    rw [if_pos (by omega)]
  have r8 : readInt32LE b 8
      = some (toSigned32 (le32 (b.getD 8 0) (b.getD 9 0) (b.getD 10 0) (b.getD 11 0))) := by
    unfold readInt32LE
    rw [if_pos (by omega)]
  simp only [rcon_get_packet_structure, r0, r4, r8, Option.some_bind]
  rfl

/-- Little-endian read-back of the bytes written for an in-range int32,
phrased on the byte list. -/
lemma toSigned32_int32Bytes_getD (v : Int)
    (h1 : -(2 ^ 31 : Int) ≤ v) (h2 : v < 2 ^ 31) :
    toSigned32 (le32 ((int32Bytes v).getD 0 0) ((int32Bytes v).getD 1 0)
      ((int32Bytes v).getD 2 0) ((int32Bytes v).getD 3 0)) = v := by
  simp only [int32Bytes, List.getD_cons_zero, List.getD_cons_succ]
  unfold toSigned32 le32
  split <;> omega

/-- Decoding the exact byte sequence the encoder produces on an ASCII body
recovers the fields. -/
lemma get_create_bytes (id ty : Int) (body : List Nat)
    (hb : ∀ c ∈ body, c < 128)
    (hsz : (body.length : Int) + 10 < 2 ^ 31)
    (hid : -(2 ^ 31 : Int) ≤ id ∧ id < 2 ^ 31)
    (hty : -(2 ^ 31 : Int) ≤ ty ∧ ty < 2 ^ 31) :
    rcon_get_packet_structure (int32Bytes ((body.length : Int) + 10)
        ++ int32Bytes id ++ int32Bytes ty ++ body ++ [0, 0]) =
      some ⟨(body.length : Int) + 10, id, ty, body⟩ := by
  have hsz1 : -(2 ^ 31 : Int) ≤ (body.length : Int) + 10 := by
    have : (0 : Int) ≤ (body.length : Int) := Int.ofNat_nonneg _
    omega
  simp only [int32Bytes, List.cons_append, List.nil_append, List.append_assoc]
  rw [get_packet_parts]
  have e1 := toSigned32_int32Bytes_getD ((body.length : Int) + 10) hsz1 hsz
  have e2 := toSigned32_int32Bytes_getD id hid.1 hid.2
  have e3 := toSigned32_int32Bytes_getD ty hty.1 hty.2
  simp only [int32Bytes, List.getD_cons_zero, List.getD_cons_succ] at e1 e2 e3
  rw [e1, e2, e3, asciiReadBytes_ascii body hb]

/-! ### Claim theorems: codec -/

/-- C1: for every ASCII body and int32 `id` and `type` (in the ranges where
`writeInt32LE` accepts them and the size fits an int32), decoding the buffer
produced by encoding yields a packet with size `len(body) + 10`, the original
id and type, and the original body. -/
theorem decode_encode_roundtrip (id ty : Int) (body : List Nat)
    (hb : ∀ c ∈ body, c < 128)
    (hsz : (body.length : Int) + 10 < 2 ^ 31)
    (hid : -(2 ^ 31 : Int) ≤ id ∧ id < 2 ^ 31)
    (hty : -(2 ^ 31 : Int) ≤ ty ∧ ty < 2 ^ 31) :
    (rcon_create_packet_structure id ty body).bind rcon_get_packet_structure =
      some ⟨(body.length : Int) + 10, id, ty, body⟩ := by
  rw [create_packet_ascii id ty body hb hsz hid hty, Option.some_bind]
  exact get_create_bytes id ty body hb hsz hid hty

/-- C1 witness: round trip at id 5, type 2, body "ping". -/
theorem decode_encode_roundtrip_witness :
    (∀ c ∈ ([112, 105, 110, 103] : List Nat), c < 128) ∧
    ((([112, 105, 110, 103] : List Nat).length : Int) + 10 < 2 ^ 31) ∧
    (-(2 ^ 31 : Int) ≤ 5 ∧ (5 : Int) < 2 ^ 31) ∧
    (-(2 ^ 31 : Int) ≤ 2 ∧ (2 : Int) < 2 ^ 31) ∧
    (rcon_create_packet_structure 5 2 [112, 105, 110, 103]).bind
        rcon_get_packet_structure =
      some ⟨(([112, 105, 110, 103] : List Nat).length : Int) + 10, 5, 2,
        [112, 105, 110, 103]⟩ :=
  ⟨by decide, by decide, ⟨by decide, by decide⟩, ⟨by decide, by decide⟩,
    decode_encode_roundtrip 5 2 [112, 105, 110, 103] (by decide) (by decide)
      ⟨by decide, by decide⟩ ⟨by decide, by decide⟩⟩

/-- C4: the encoded buffer has exactly `len(body) + 14` bytes: the
little-endian int32 `len(body) + 10` in bytes 0..4, `id` in bytes 4..8,
`type` in bytes 8..12, the body from byte 12, and two NUL bytes immediately
after the body. -/
theorem encode_layout (id ty : Int) (body : List Nat)
    (hb : ∀ c ∈ body, c < 128)
    (hsz : (body.length : Int) + 10 < 2 ^ 31)
    (hid : -(2 ^ 31 : Int) ≤ id ∧ id < 2 ^ 31)
    (hty : -(2 ^ 31 : Int) ≤ ty ∧ ty < 2 ^ 31) :
    ∃ buf, rcon_create_packet_structure id ty body = some buf ∧
      buf.length = body.length + 14 ∧
      buf.take 4 = int32Bytes ((body.length : Int) + 10) ∧
      (buf.drop 4).take 4 = int32Bytes id ∧
      (buf.drop 8).take 4 = int32Bytes ty ∧
      (buf.drop 12).take body.length = body ∧
      buf.drop (body.length + 12) = [0, 0] := by
  refine ⟨int32Bytes ((body.length : Int) + 10) ++ (int32Bytes id
    ++ (int32Bytes ty ++ (body ++ [0, 0]))), ?_, ?_, ?_, ?_, ?_, ?_, ?_⟩
  · rw [create_packet_ascii id ty body hb hsz hid hty]
    simp [List.append_assoc]
  · simp only [List.length_append, int32Bytes_length, List.length_cons,
      List.length_nil]
    omega
  · exact List.take_left' (int32Bytes_length _)
  · rw [List.drop_left' (int32Bytes_length _)]
    exact List.take_left' (int32Bytes_length _)
  · rw [show (8 : Nat) = 4 + 4 from rfl, ← List.drop_drop,
      List.drop_left' (int32Bytes_length _),
      List.drop_left' (int32Bytes_length _)]
    exact List.take_left' (int32Bytes_length _)
  · rw [show (12 : Nat) = 4 + 8 from rfl, ← List.drop_drop,
      List.drop_left' (int32Bytes_length _),
      show (8 : Nat) = 4 + 4 from rfl, ← List.drop_drop,
      List.drop_left' (int32Bytes_length _),
      List.drop_left' (int32Bytes_length _)]
    exact List.take_left' rfl
  · rw [show body.length + 12 = 12 + body.length from Nat.add_comm _ _,
      ← List.drop_drop,
      show (12 : Nat) = 4 + 8 from rfl, ← List.drop_drop,
      List.drop_left' (int32Bytes_length _),
      show (8 : Nat) = 4 + 4 from rfl, ← List.drop_drop,
      List.drop_left' (int32Bytes_length _),
      List.drop_left' (int32Bytes_length _)]
    exact List.drop_left' rfl

/-- C4 witness: layout at id 5, type 2, body "ping". -/
theorem encode_layout_witness :
    (∀ c ∈ ([112, 105, 110, 103] : List Nat), c < 128) ∧
    ((([112, 105, 110, 103] : List Nat).length : Int) + 10 < 2 ^ 31) ∧
    (-(2 ^ 31 : Int) ≤ 5 ∧ (5 : Int) < 2 ^ 31) ∧
    (-(2 ^ 31 : Int) ≤ 2 ∧ (2 : Int) < 2 ^ 31) ∧
    (∃ buf, rcon_create_packet_structure 5 2 [112, 105, 110, 103] = some buf ∧
      buf.length = ([112, 105, 110, 103] : List Nat).length + 14 ∧
      buf.take 4 = int32Bytes ((([112, 105, 110, 103] : List Nat).length : Int) + 10) ∧
      (buf.drop 4).take 4 = int32Bytes 5 ∧
      (buf.drop 8).take 4 = int32Bytes 2 ∧
      (buf.drop 12).take ([112, 105, 110, 103] : List Nat).length = [112, 105, 110, 103] ∧
      buf.drop (([112, 105, 110, 103] : List Nat).length + 12) = [0, 0]) :=
  ⟨by decide, by decide, ⟨by decide, by decide⟩, ⟨by decide, by decide⟩,
    encode_layout 5 2 [112, 105, 110, 103] (by decide) (by decide)
      ⟨by decide, by decide⟩ ⟨by decide, by decide⟩⟩

/-- C5: on any buffer of length at least 12, decode reads `size`, `id`,
`type` as little-endian signed int32 at offsets 0, 4, 8, takes as body the
ascii-decoded bytes from offset 12 up to `length − 2`, and the body does not
depend on the declared size field (bytes 0..4). -/
theorem decode_fixed_offsets (b : List Nat) (h : 12 ≤ b.length) :
    ∃ p, rcon_get_packet_structure b = some p ∧
      readInt32LE b 0 = some p.size ∧
      readInt32LE b 4 = some p.id ∧
      readInt32LE b 8 = some p.type ∧
      p.body = asciiReadBytes ((b.take (b.length - 2)).drop 12) ∧
      (∀ b' : List Nat, b'.length = b.length → b'.drop 4 = b.drop 4 →
        ∃ p', rcon_get_packet_structure b' = some p' ∧ p'.body = p.body) := by
  refine ⟨_, get_packet_of_length b h, ?_, ?_, ?_, rfl, ?_⟩
  · unfold readInt32LE
    rw [if_pos (by omega)]
  · unfold readInt32LE
    rw [if_pos (by omega)]
  · unfold readInt32LE
    rw [if_pos (by omega)]
  · intro b' hlen hdrop
    have h' : 12 ≤ b'.length := by omega
    refine ⟨_, get_packet_of_length b' h', ?_⟩
    show asciiReadBytes ((b'.take (b'.length - 2)).drop 12)
        = asciiReadBytes ((b.take (b.length - 2)).drop 12)
    congr 1
    rw [hlen]
    by_cases hN : 14 ≤ b.length
    · have e : b.length - 2 = 12 + (b.length - 14) := by omega
      rw [e, ← List.take_drop, ← List.take_drop]
      have e1 : b'.drop 12 = b.drop 12 := by
        rw [show (12 : Nat) = 4 + 8 from rfl, ← List.drop_drop,
          ← List.drop_drop, hdrop]
      rw [e1]
    · rw [List.drop_eq_nil_of_le (by rw [List.length_take]; omega),
        List.drop_eq_nil_of_le (by rw [List.length_take]; omega)]

/-- C5 witness: decode of a concrete 18-byte auth packet. -/
theorem decode_fixed_offsets_witness :
    12 ≤ ([14, 0, 0, 0, 10, 0, 0, 0, 3, 0, 0, 0, 112, 97, 115, 115, 0, 0] :
      List Nat).length ∧
    (∃ p, rcon_get_packet_structure
        [14, 0, 0, 0, 10, 0, 0, 0, 3, 0, 0, 0, 112, 97, 115, 115, 0, 0] = some p ∧
      readInt32LE [14, 0, 0, 0, 10, 0, 0, 0, 3, 0, 0, 0, 112, 97, 115, 115, 0, 0] 0
        = some p.size ∧
      readInt32LE [14, 0, 0, 0, 10, 0, 0, 0, 3, 0, 0, 0, 112, 97, 115, 115, 0, 0] 4
        = some p.id ∧
      readInt32LE [14, 0, 0, 0, 10, 0, 0, 0, 3, 0, 0, 0, 112, 97, 115, 115, 0, 0] 8
        = some p.type ∧
      p.body = asciiReadBytes ((([14, 0, 0, 0, 10, 0, 0, 0, 3, 0, 0, 0, 112, 97,
        115, 115, 0, 0] : List Nat).take
          (([14, 0, 0, 0, 10, 0, 0, 0, 3, 0, 0, 0, 112, 97, 115, 115, 0, 0] :
            List Nat).length - 2)).drop 12) ∧
      (∀ b' : List Nat,
        b'.length = ([14, 0, 0, 0, 10, 0, 0, 0, 3, 0, 0, 0, 112, 97, 115, 115,
          0, 0] : List Nat).length →
        b'.drop 4 = ([14, 0, 0, 0, 10, 0, 0, 0, 3, 0, 0, 0, 112, 97, 115, 115,
          0, 0] : List Nat).drop 4 →
        ∃ p', rcon_get_packet_structure b' = some p' ∧ p'.body = p.body)) :=
  ⟨by decide,
    decode_fixed_offsets [14, 0, 0, 0, 10, 0, 0, 0, 3, 0, 0, 0, 112, 97, 115,
      115, 0, 0] (by decide)⟩

/-- C10: decode returns a packet (raises no error) on every buffer of length
at least 12, and on buffers of length exactly 12 or 13 the body is empty. -/
theorem decode_total_min12 (b : List Nat) (h : 12 ≤ b.length) :
    ∃ p, rcon_get_packet_structure b = some p ∧
      (b.length ≤ 13 → p.body = []) := by
  refine ⟨_, get_packet_of_length b h, ?_⟩
  intro h13
  show asciiReadBytes ((b.take (b.length - 2)).drop 12) = []
  rw [List.drop_eq_nil_of_le (by rw [List.length_take]; omega)]
  rfl

/-- C10 witness: a 12-byte all-zero buffer decodes to a packet with empty
body. -/
theorem decode_total_min12_witness :
    12 ≤ ([0, 0, 0, 0, 0, 0, 0, 0, 0, 0, 0, 0] : List Nat).length ∧
    (∃ p, rcon_get_packet_structure
        [0, 0, 0, 0, 0, 0, 0, 0, 0, 0, 0, 0] = some p ∧
      (([0, 0, 0, 0, 0, 0, 0, 0, 0, 0, 0, 0] : List Nat).length ≤ 13 →
        p.body = [])) :=
  ⟨by decide,
    decode_total_min12 [0, 0, 0, 0, 0, 0, 0, 0, 0, 0, 0, 0] (by decide)⟩

/-! ### Session model

The session returned by `rcon_connect` is a small event system: `send`
writes the packet, removes every `'data'` and `'error'` listener from the
socket, and attaches one of each, tied to a fresh promise.  We model the
socket and the outstanding promises explicitly; promises are indexed by the
order of the `send` calls that created them.  A JavaScript exception thrown
inside an event listener is uncaught: it settles no promise. -/

/-- The observable result of running the `'data'` listener body of `send` on
one inbound chunk: `resolved` for `resolve(packet)`, `threw` for an uncaught
JavaScript throw (either `readInt32LE`'s range error on a short buffer or the
`Wrong RCON password!` error). -/
inductive HandlerOutcome where
  | resolved (p : PacketStructure)
  | threw (msg : String)
deriving DecidableEq, Repr

/-- The `'data'` listener body from `send`: decode the chunk, throw
`Wrong RCON password!` when `type === 2 && id === -1`, otherwise resolve with
the decoded packet. -/
def send_data_handler (data : List Nat) : HandlerOutcome :=
  match rcon_get_packet_structure data with
  | none => .threw "ERR_OUT_OF_RANGE"
  | some packet =>
      if packet.type = 2 ∧ packet.id = -1 then .threw "Wrong RCON password!"
      else .resolved packet

/-- A JavaScript value a promise can be fulfilled with: the code under study
fulfills with decoded packet structures; the spec speaks of bare body
strings. -/
inductive JsValue where
  | str (s : List Nat)
  | packet (p : PacketStructure)
deriving DecidableEq, Repr

/-- The settlement state of one promise. -/
inductive PromiseState where
  | pending
  | fulfilled (v : JsValue)
  | rejected (msg : String)
deriving DecidableEq, Repr

/-- `resolve(v)` on a promise: settles it only if it is still pending. -/
def resolvePromise (st : PromiseState) (v : JsValue) : PromiseState :=
  match st with
  | .pending => .fulfilled v
  | st => st

/-- `reject(msg)` on a promise: settles it only if it is still pending. -/
def rejectPromise (st : PromiseState) (msg : String) : PromiseState :=
  match st with
  | .pending => .rejected msg
  | st => st

/-- The socket and promise state of one session.  `dataListeners` and
`errorListeners` hold the promise indices whose `send` call's listeners are
currently attached; `promise i` is the state of the promise created by the
`i`-th `send`; `invocations i` counts how many times that send's `'data'`
listener has run. -/
structure SessionState where
  written : List (List Nat)
  dataListeners : List Nat
  errorListeners : List Nat
  promiseCount : Nat
  promise : Nat → PromiseState
  invocations : Nat → Nat

/-- The session right after `rcon_connect`: nothing written, no listeners,
no promises. -/
def initSession : SessionState :=
  ⟨[], [], [], 0, fun _ => .pending, fun _ => 0⟩

/-- `send(packet)`: `connection.write(packet)`, then
`removeAllListeners('data')`, `removeAllListeners('error')`, then `on('data')`
and `on('error')` for a fresh pending promise. -/
def sendStep (s : SessionState) (packet : List Nat) : SessionState :=
  { written := s.written ++ [packet]
    dataListeners := [s.promiseCount]
    errorListeners := [s.promiseCount]
    promiseCount := s.promiseCount + 1
    promise := fun j => if j = s.promiseCount then .pending else s.promise j
    invocations := s.invocations }

/-- Effect on the promises of running the `'data'` listener of promise `i`
on one chunk: a throw settles nothing, a resolve settles promise `i` if it is
still pending. -/
def handleData (chunk : List Nat) (pr : Nat → PromiseState) (i : Nat) :
    Nat → PromiseState :=
  fun j =>
    if j = i then
      match send_data_handler chunk with
      | .resolved p => resolvePromise (pr i) (.packet p)
      | .threw _ => pr i
    else pr j

/-- A chunk arriving on the socket: every attached `'data'` listener runs
once; listeners attached with `on` stay attached afterwards. -/
def dataStep (s : SessionState) (chunk : List Nat) : SessionState :=
  { s with
    promise := s.dataListeners.foldl (handleData chunk) s.promise
    invocations := fun j => s.invocations j + s.dataListeners.count j }

/-- Effect of running the `'error'` listener of promise `i`:
`reject(error)`. -/
def handleError (msg : String) (pr : Nat → PromiseState) (i : Nat) :
    Nat → PromiseState :=
  fun j => if j = i then rejectPromise (pr i) msg else pr j

/-- A socket error event: every attached `'error'` listener runs once. -/
def errorStep (s : SessionState) (msg : String) : SessionState :=
  { s with promise := s.errorListeners.foldl (handleError msg) s.promise }

/-- The events a session reacts to. -/
inductive Event where
  | send (packet : List Nat)
  | dataArrive (chunk : List Nat)
  | errorArrive (msg : String)

/-- One step of the session event system. -/
def step (s : SessionState) (e : Event) : SessionState :=
  match e with
  | .send p => sendStep s p
  | .dataArrive c => dataStep s c
  | .errorArrive m => errorStep s m

/-- Run a list of events from the fresh session. -/
def run (events : List Event) : SessionState :=
  events.foldl step initSession

/-- `auth(password)` from the source:
`send(rcon_create_packet_structure(10, PACKET_TYPES.SERVERDATA_AUTH,
password))`; `none` when encoding throws. -/
def authStep (s : SessionState) (password : List Nat) : Option SessionState :=
  (rcon_create_packet_structure 10 PACKET_TYPES_SERVERDATA_AUTH password).map
    (sendStep s)

/-- `command(name)` from the source:
`send(rcon_create_packet_structure(crypto.randomInt(10000),
PACKET_TYPES.SERVERDATA_EXECCOMMAND, name))`.  The value returned by
`crypto.randomInt(10000)` is taken as the parameter `id`; its contract, a
uniform integer in `[0, 10000)`, is a hypothesis of the theorems. -/
def commandStep (s : SessionState) (id : Nat) (name : List Nat) :
    Option SessionState :=
  (rcon_create_packet_structure (id : Int) PACKET_TYPES_SERVERDATA_EXECCOMMAND
    name).map (sendStep s)

/-! ### Session lemmas -/

/-- After `sendStep`, a chunk whose handler resolves settles the fresh
promise with the full decoded packet. -/
lemma send_resolves (s0 : SessionState) (buf chunk : List Nat)
    (p : PacketStructure) (hc : send_data_handler chunk = .resolved p) :
    (dataStep (sendStep s0 buf) chunk).promise s0.promiseCount
      = .fulfilled (.packet p) := by
  simp [dataStep, sendStep, handleData, hc, resolvePromise]

/-- The at-most-one-listener invariant. -/
def ListenersBounded (s : SessionState) : Prop :=
  s.dataListeners.length ≤ 1 ∧ s.errorListeners.length ≤ 1

lemma listenersBounded_step (s : SessionState) (e : Event)
    (h : ListenersBounded s) : ListenersBounded (step s e) := by
  cases e with
  | send p => exact ⟨by simp [step, sendStep], by simp [step, sendStep]⟩
  | dataArrive c => exact h
  | errorArrive m => exact h

lemma listenersBounded_foldl (l : List Event) (s : SessionState)
    (h : ListenersBounded s) : ListenersBounded (l.foldl step s) := by
  induction l generalizing s with
  | nil => exact h
  | cons e t ih => exact ih (step s e) (listenersBounded_step s e h)

/-- Invariant describing a stolen first request: at least two sends have
happened, promise 0 is forever pending, promise 1 is fulfilled with `v`, and
every attached listener belongs to promise 1 or later. -/
def StolenInv (v : JsValue) (s : SessionState) : Prop :=
  2 ≤ s.promiseCount ∧ s.promise 0 = .pending ∧ s.promise 1 = .fulfilled v ∧
  (∀ i ∈ s.dataListeners, 1 ≤ i) ∧ (∀ i ∈ s.errorListeners, 1 ≤ i)

lemma handleData_foldl_preserve (chunk : List Nat) (l : List Nat)
    (pr : Nat → PromiseState) (v : JsValue)
    (hl : ∀ i ∈ l, 1 ≤ i) (h0 : pr 0 = .pending) (h1 : pr 1 = .fulfilled v) :
    (l.foldl (handleData chunk) pr) 0 = .pending ∧
    (l.foldl (handleData chunk) pr) 1 = .fulfilled v := by
  induction l generalizing pr with
  | nil => exact ⟨h0, h1⟩
  | cons i t ih =>
    have hi : 1 ≤ i := hl i (List.mem_cons_self i t)
    apply ih (handleData chunk pr i)
    · intro j hj
      exact hl j (List.mem_cons_of_mem i hj)
    · show (if (0 : Nat) = i then _ else pr 0) = PromiseState.pending
      rw [if_neg (by omega)]
      exact h0
    · by_cases h1i : (1 : Nat) = i
      · show (if (1 : Nat) = i then
            match send_data_handler chunk with
            | .resolved p => resolvePromise (pr i) (.packet p)
            | .threw _ => pr i
          else pr 1) = PromiseState.fulfilled v
        rw [if_pos h1i, ← h1i]
        cases hout : send_data_handler chunk with
        | resolved p => rw [h1]; rfl
        | threw m => exact h1
      · show (if (1 : Nat) = i then _ else pr 1) = PromiseState.fulfilled v
        rw [if_neg h1i]
        exact h1

lemma handleError_foldl_preserve (msg : String) (l : List Nat)
    (pr : Nat → PromiseState) (v : JsValue)
    (hl : ∀ i ∈ l, 1 ≤ i) (h0 : pr 0 = .pending) (h1 : pr 1 = .fulfilled v) :
    (l.foldl (handleError msg) pr) 0 = .pending ∧
    (l.foldl (handleError msg) pr) 1 = .fulfilled v := by
  induction l generalizing pr with
  | nil => exact ⟨h0, h1⟩
  | cons i t ih =>
    have hi : 1 ≤ i := hl i (List.mem_cons_self i t)
    apply ih (handleError msg pr i)
    · intro j hj
      exact hl j (List.mem_cons_of_mem i hj)
    · show (if (0 : Nat) = i then _ else pr 0) = PromiseState.pending
      rw [if_neg (by omega)]
      exact h0
    · by_cases h1i : (1 : Nat) = i
      · show (if (1 : Nat) = i then rejectPromise (pr i) msg else pr 1)
            = PromiseState.fulfilled v
        rw [if_pos h1i, ← h1i, h1]
        rfl
      · show (if (1 : Nat) = i then _ else pr 1) = PromiseState.fulfilled v
        rw [if_neg h1i]
        exact h1

lemma stolenInv_step (v : JsValue) (s : SessionState) (e : Event)
    (h : StolenInv v s) : StolenInv v (step s e) := by
  obtain ⟨hc, h0, h1, hd, he⟩ := h
  cases e with
  | send p =>
    refine ⟨?_, ?_, ?_, ?_, ?_⟩
    · show 2 ≤ s.promiseCount + 1
      omega
    · show (if (0 : Nat) = s.promiseCount then PromiseState.pending
          else s.promise 0) = PromiseState.pending
      rw [if_neg (by omega)]
      exact h0
    · show (if (1 : Nat) = s.promiseCount then PromiseState.pending
          else s.promise 1) = PromiseState.fulfilled v
      rw [if_neg (by omega)]
      exact h1
    · intro i hi
      have : i = s.promiseCount := List.mem_singleton.mp hi
      omega
    · intro i hi
      have : i = s.promiseCount := List.mem_singleton.mp hi
      omega
  | dataArrive c =>
    have hp := handleData_foldl_preserve c s.dataListeners s.promise v hd h0 h1
    exact ⟨hc, hp.1, hp.2, hd, he⟩
  | errorArrive m =>
    have hp := handleError_foldl_preserve m s.errorListeners s.promise v he h0 h1
    exact ⟨hc, hp.1, hp.2, hd, he⟩

lemma stolenInv_foldl (v : JsValue) (l : List Event) (s : SessionState)
    (h : StolenInv v s) : StolenInv v (l.foldl step s) := by
  induction l generalizing s with
  | nil => exact h
  | cons e t ih => exact ih (step s e) (stolenInv_step v s e h)

/-- After two back-to-back sends and one resolving chunk, the second promise
holds the response and the first is still pending. -/
lemma stolenInv_after (p1 p2 chunk : List Nat) (pk : PacketStructure)
    (hc : send_data_handler chunk = .resolved pk) :
    StolenInv (.packet pk) (run [.send p1, .send p2, .dataArrive chunk]) := by
  refine ⟨Nat.le_refl 2, ?_, ?_, ?_, ?_⟩
  · show (dataStep (sendStep (sendStep initSession p1) p2) chunk).promise 0
        = PromiseState.pending
    simp [dataStep, sendStep, initSession, handleData, hc, resolvePromise]
  · show (dataStep (sendStep (sendStep initSession p1) p2) chunk).promise 1
        = PromiseState.fulfilled (.packet pk)
    simp [dataStep, sendStep, initSession, handleData, hc, resolvePromise]
  · intro i hi
    have : i = 1 := List.mem_singleton.mp hi
    omega
  · intro i hi
    have : i = 1 := List.mem_singleton.mp hi
    omega

/-! ### Claim theorems: session -/

/-- C8: every `send` removes all previously attached data and error
listeners before attaching its own, so after any event sequence at most one
data listener and at most one error listener are armed; and when a second
`send` is issued before the first resolved, the next resolving chunk fulfills
the second call's promise while the first call's promise stays pending under
every continuation of events. -/
theorem send_single_listener_and_steal :
    (∀ events : List Event, (run events).dataListeners.length ≤ 1 ∧
      (run events).errorListeners.length ≤ 1) ∧
    (∀ p1 p2 chunk : List Nat, ∀ rest : List Event, ∀ pk : PacketStructure,
      send_data_handler chunk = .resolved pk →
      (run ([.send p1, .send p2, .dataArrive chunk] ++ rest)).promise 1
          = .fulfilled (.packet pk) ∧
      (run ([.send p1, .send p2, .dataArrive chunk] ++ rest)).promise 0
          = .pending) := by
  constructor
  · intro events
    exact listenersBounded_foldl events initSession ⟨Nat.zero_le _, Nat.zero_le _⟩
  · intro p1 p2 chunk rest pk hc
    have hrun : run ([.send p1, .send p2, .dataArrive chunk] ++ rest)
        = rest.foldl step (run [.send p1, .send p2, .dataArrive chunk]) := by
      unfold run
      rw [List.foldl_append]
    have hinv := stolenInv_foldl (.packet pk) rest
      (run [.send p1, .send p2, .dataArrive chunk])
      (stolenInv_after p1 p2 chunk pk hc)
    rw [hrun]
    exact ⟨hinv.2.2.1, hinv.2.1⟩

/-- C8 witness: two sends then one resolving chunk (and no further events):
the second promise is fulfilled, the first stays pending. -/
theorem send_single_listener_and_steal_witness :
    send_data_handler [10, 0, 0, 0, 10, 0, 0, 0, 0, 0, 0, 0, 0, 0]
      = .resolved ⟨10, 10, 0, []⟩ ∧
    (run ([.send [], .send [],
        .dataArrive [10, 0, 0, 0, 10, 0, 0, 0, 0, 0, 0, 0, 0, 0]] ++ [])).promise 1
      = .fulfilled (.packet ⟨10, 10, 0, []⟩) ∧
    (run ([.send [], .send [],
        .dataArrive [10, 0, 0, 0, 10, 0, 0, 0, 0, 0, 0, 0, 0, 0]] ++ [])).promise 0
      = .pending :=
  ⟨by decide,
    (send_single_listener_and_steal.2 [] []
      [10, 0, 0, 0, 10, 0, 0, 0, 0, 0, 0, 0, 0, 0] [] ⟨10, 10, 0, []⟩
      (by decide)).1,
    (send_single_listener_and_steal.2 [] []
      [10, 0, 0, 0, 10, 0, 0, 0, 0, 0, 0, 0, 0, 0] [] ⟨10, 10, 0, []⟩
      (by decide)).2⟩

/-- C6: `auth(password)` writes exactly one packet, encoded with type
`SERVERDATA_AUTH` (3), fixed id 10 and body the password; it arms exactly one
response listener whose promise is pending until settled by the next
resolving chunk. -/
theorem auth_sends_single_auth_packet (password : List Nat)
    (hp : ∀ c ∈ password, c < 128)
    (hsz : (password.length : Int) + 10 < 2 ^ 31) :
    ∃ buf s, authStep initSession password = some s ∧
      s.written = [buf] ∧
      rcon_get_packet_structure buf =
        some ⟨(password.length : Int) + 10, 10, PACKET_TYPES_SERVERDATA_AUTH,
          password⟩ ∧
      s.dataListeners = [0] ∧ s.promise 0 = .pending ∧
      (∀ chunk p, send_data_handler chunk = .resolved p →
        (dataStep s chunk).promise 0 = .fulfilled (.packet p)) := by
  have hcr := create_packet_ascii 10 PACKET_TYPES_SERVERDATA_AUTH password hp
    hsz ⟨by decide, by decide⟩ ⟨by decide, by decide⟩
  refine ⟨int32Bytes ((password.length : Int) + 10) ++ int32Bytes 10
      ++ int32Bytes PACKET_TYPES_SERVERDATA_AUTH ++ password ++ [0, 0],
    sendStep initSession (int32Bytes ((password.length : Int) + 10)
      ++ int32Bytes 10 ++ int32Bytes PACKET_TYPES_SERVERDATA_AUTH ++ password
      ++ [0, 0]), ?_, ?_, ?_, rfl, rfl, ?_⟩
  · unfold authStep
    rw [hcr]
    rfl
  · simp [sendStep, initSession]
  · exact get_create_bytes 10 PACKET_TYPES_SERVERDATA_AUTH password hp hsz
      ⟨by decide, by decide⟩ ⟨by decide, by decide⟩
  · intro chunk p hcp
    exact send_resolves initSession _ chunk p hcp

/-- C6 witness: authenticating with password "pass". -/
theorem auth_sends_single_auth_packet_witness :
    (∀ c ∈ ([112, 97, 115, 115] : List Nat), c < 128) ∧
    ((([112, 97, 115, 115] : List Nat).length : Int) + 10 < 2 ^ 31) ∧
    (∃ buf s, authStep initSession [112, 97, 115, 115] = some s ∧
      s.written = [buf] ∧
      rcon_get_packet_structure buf =
        some ⟨(([112, 97, 115, 115] : List Nat).length : Int) + 10, 10,
          PACKET_TYPES_SERVERDATA_AUTH, [112, 97, 115, 115]⟩ ∧
      s.dataListeners = [0] ∧ s.promise 0 = .pending ∧
      (∀ chunk p, send_data_handler chunk = .resolved p →
        (dataStep s chunk).promise 0 = .fulfilled (.packet p))) :=
  ⟨by decide, by decide,
    auth_sends_single_auth_packet [112, 97, 115, 115] (by decide) (by decide)⟩

/-- C7: `command(name)` writes exactly one packet, encoded with type
`SERVERDATA_EXECCOMMAND` (2), the generated id (in `[0, 10000)` by
`crypto.randomInt`'s contract) and body the command text; the armed promise
is settled by the first resolving chunk with no constraint relating that
chunk's echoed id to the generated id. -/
theorem command_sends_execcommand_uncorrelated (id : Nat) (hid : id < 10000)
    (name : List Nat) (hn : ∀ c ∈ name, c < 128)
    (hsz : (name.length : Int) + 10 < 2 ^ 31) :
    ∃ buf s, commandStep initSession id name = some s ∧
      s.written = [buf] ∧
      rcon_get_packet_structure buf =
        some ⟨(name.length : Int) + 10, (id : Int),
          PACKET_TYPES_SERVERDATA_EXECCOMMAND, name⟩ ∧
      s.dataListeners = [0] ∧ s.promise 0 = .pending ∧
      (∀ chunk p, send_data_handler chunk = .resolved p →
        (dataStep s chunk).promise 0 = .fulfilled (.packet p)) := by
  have hidr : -(2 ^ 31 : Int) ≤ (id : Int) ∧ (id : Int) < 2 ^ 31 := by
    constructor <;> omega
  have hcr := create_packet_ascii (id : Int) PACKET_TYPES_SERVERDATA_EXECCOMMAND
    name hn hsz hidr ⟨by decide, by decide⟩
  refine ⟨int32Bytes ((name.length : Int) + 10) ++ int32Bytes (id : Int)
      ++ int32Bytes PACKET_TYPES_SERVERDATA_EXECCOMMAND ++ name ++ [0, 0],
    sendStep initSession (int32Bytes ((name.length : Int) + 10)
      ++ int32Bytes (id : Int) ++ int32Bytes PACKET_TYPES_SERVERDATA_EXECCOMMAND
      ++ name ++ [0, 0]), ?_, ?_, ?_, rfl, rfl, ?_⟩
  · unfold commandStep
    rw [hcr]
    rfl
  · simp [sendStep, initSession]
  · exact get_create_bytes (id : Int) PACKET_TYPES_SERVERDATA_EXECCOMMAND name
      hn hsz hidr ⟨by decide, by decide⟩
  · intro chunk p hcp
    exact send_resolves initSession _ chunk p hcp

/-- C7 witness: `command("ping")` with generated id 9999 is answered by a
packet echoing a different id (7) and still resolves with it. -/
theorem command_sends_execcommand_uncorrelated_witness :
    9999 < 10000 ∧
    (∀ c ∈ ([112, 105, 110, 103] : List Nat), c < 128) ∧
    ((([112, 105, 110, 103] : List Nat).length : Int) + 10 < 2 ^ 31) ∧
    (∃ buf s, commandStep initSession 9999 [112, 105, 110, 103] = some s ∧
      s.written = [buf] ∧
      rcon_get_packet_structure buf =
        some ⟨(([112, 105, 110, 103] : List Nat).length : Int) + 10, (9999 : Int),
          PACKET_TYPES_SERVERDATA_EXECCOMMAND, [112, 105, 110, 103]⟩ ∧
      s.dataListeners = [0] ∧ s.promise 0 = .pending ∧
      (∀ chunk p, send_data_handler chunk = .resolved p →
        (dataStep s chunk).promise 0 = .fulfilled (.packet p))) :=
  ⟨by decide, by decide, by decide,
    command_sends_execcommand_uncorrelated 9999 (by decide)
      [112, 105, 110, 103] (by decide) (by decide)⟩

/-- C2: on the failing input — the first reply after `auth("pass")` has
`type == 2` and `id == -1` — the `'data'` listener throws the uncaught
JavaScript error `Wrong RCON password!`, and the authenticate promise stays
pending: it is never rejected, contrary to the claim; a reply failing the
check resolves the promise instead. -/
theorem auth_wrong_password_promise_unsettled :
    send_data_handler [10, 0, 0, 0, 255, 255, 255, 255, 2, 0, 0, 0, 0, 0]
      = .threw "Wrong RCON password!" ∧
    (authStep initSession [112, 97, 115, 115]).map
        (fun s => (dataStep s
          [10, 0, 0, 0, 255, 255, 255, 255, 2, 0, 0, 0, 0, 0]).promise 0)
      = some .pending ∧
    (authStep initSession [112, 97, 115, 115]).map
        (fun s => (dataStep s
          [10, 0, 0, 0, 10, 0, 0, 0, 0, 0, 0, 0, 0, 0]).promise 0)
      = some (.fulfilled (.packet ⟨10, 10, 0, []⟩)) := by
  refine ⟨by decide, by decide, by decide⟩

/-- C3 counterexample: `command("ping")` answered by a packet with body
"pong" resolves with the full packet structure, not with the bare string
"pong". -/
theorem command_resolution_is_packet_not_string :
    (commandStep initSession 5 [112, 105, 110, 103]).map
        (fun s => (dataStep s
          [14, 0, 0, 0, 0, 0, 0, 0, 0, 0, 0, 0, 112, 111, 110, 103, 0, 0]).promise 0)
      = some (.fulfilled (.packet ⟨14, 0, 0, [112, 111, 110, 103]⟩)) ∧
    (commandStep initSession 5 [112, 105, 110, 103]).map
        (fun s => (dataStep s
          [14, 0, 0, 0, 0, 0, 0, 0, 0, 0, 0, 0, 112, 111, 110, 103, 0, 0]).promise 0)
      ≠ some (.fulfilled (.str [112, 111, 110, 103])) := by
  refine ⟨by decide, by decide⟩

/-- C3 amended: `sendCommand(text)` resolves with the entire decoded response
packet structure (size, id, type, body) — whose body field equals the
response body — not with the bare body string. -/
theorem command_resolves_with_full_packet (id : Nat) (hid : id < 10000)
    (name : List Nat) (hn : ∀ c ∈ name, c < 128)
    (hsz : (name.length : Int) + 10 < 2 ^ 31)
    (chunk : List Nat) (p : PacketStructure)
    (hc : send_data_handler chunk = .resolved p) :
    ∃ s, commandStep initSession id name = some s ∧
      (dataStep s chunk).promise 0 = .fulfilled (.packet p) := by
  have hidr : -(2 ^ 31 : Int) ≤ (id : Int) ∧ (id : Int) < 2 ^ 31 := by
    constructor <;> omega
  have hcr := create_packet_ascii (id : Int) PACKET_TYPES_SERVERDATA_EXECCOMMAND
    name hn hsz hidr ⟨by decide, by decide⟩
  refine ⟨sendStep initSession (int32Bytes ((name.length : Int) + 10)
      ++ int32Bytes (id : Int) ++ int32Bytes PACKET_TYPES_SERVERDATA_EXECCOMMAND
      ++ name ++ [0, 0]), ?_, send_resolves initSession _ chunk p hc⟩
  unfold commandStep
  rw [hcr]
  rfl

/-- C3 amended witness: the "ping"/"pong" exchange. -/
theorem command_resolves_with_full_packet_witness :
    5 < 10000 ∧
    (∀ c ∈ ([112, 105, 110, 103] : List Nat), c < 128) ∧
    ((([112, 105, 110, 103] : List Nat).length : Int) + 10 < 2 ^ 31) ∧
    send_data_handler [14, 0, 0, 0, 0, 0, 0, 0, 0, 0, 0, 0, 112, 111, 110,
      103, 0, 0] = .resolved ⟨14, 0, 0, [112, 111, 110, 103]⟩ ∧
    (∃ s, commandStep initSession 5 [112, 105, 110, 103] = some s ∧
      (dataStep s [14, 0, 0, 0, 0, 0, 0, 0, 0, 0, 0, 0, 112, 111, 110, 103,
        0, 0]).promise 0
        = .fulfilled (.packet ⟨14, 0, 0, [112, 111, 110, 103]⟩)) :=
  ⟨by decide, by decide, by decide, by decide,
    command_resolves_with_full_packet 5 (by decide) [112, 105, 110, 103]
      (by decide) (by decide)
      [14, 0, 0, 0, 0, 0, 0, 0, 0, 0, 0, 0, 112, 111, 110, 103, 0, 0]
      ⟨14, 0, 0, [112, 111, 110, 103]⟩ (by decide)⟩

/-- C9 counterexample: after one `send` and one inbound chunk, the data
listener is still registered (it was invoked but not deregistered), and a
second inbound chunk runs the very same handler a second time. -/
theorem data_listener_not_deregistered :
    (run [.send [], .dataArrive [10, 0, 0, 0, 10, 0, 0, 0, 0, 0, 0, 0, 0, 0]]
      ).dataListeners = [0] ∧
    (run [.send [], .dataArrive [10, 0, 0, 0, 10, 0, 0, 0, 0, 0, 0, 0, 0, 0]]
      ).invocations 0 = 1 ∧
    (run [.send [], .dataArrive [10, 0, 0, 0, 10, 0, 0, 0, 0, 0, 0, 0, 0, 0],
      .dataArrive [10, 0, 0, 0, 10, 0, 0, 0, 0, 0, 0, 0, 0, 0]]
      ).invocations 0 = 2 := by
  refine ⟨by decide, by decide, by decide⟩

/-- C9 amended: the handler `send` registers is invoked once per inbound
chunk and stays registered afterwards (each chunk re-invokes it, a no-op on
an already settled promise); it is deregistered only when a subsequent `send`
removes all listeners. -/
theorem data_listener_persists_until_next_send (p c1 c2 q : List Nat) :
    (run [.send p, .dataArrive c1]).dataListeners = [0] ∧
    (run [.send p, .dataArrive c1]).invocations 0 = 1 ∧
    (run [.send p, .dataArrive c1, .dataArrive c2]).dataListeners = [0] ∧
    (run [.send p, .dataArrive c1, .dataArrive c2]).invocations 0 = 2 ∧
    (run [.send p, .dataArrive c1, .dataArrive c2, .send q]).dataListeners
      = [1] := by
  refine ⟨rfl, rfl, rfl, rfl, rfl⟩

end Rcon
